import Mathlib

/-!
Shallow embedding of the dse.modelc core (controller, marshaling engine, loader,
gateway) and proofs of the specification claims.  C doubles are embedded as `ℚ`
(exact arithmetic), byte buffers as `List ℕ` of valid bytes together with a
retained capacity, and the bus adapter's effects are modelled from the spec
where the adapter implementation is not part of the sources.
-/

set_option linter.unusedVariables false

set_option allowUnsafeReducibility true

attribute [local semireducible] Rat.add Rat.mul Rat.sub Rat.inv Rat.ofScientific

namespace Modelc

/-! ## Definitions: shallow embedding of the dse.modelc core -/

structure Signal where
  val : ℚ
  final_val : ℚ
  bin : List ℕ
  bin_buffer_size : ℕ
deriving Repr, DecidableEq

abbrev Chan : Type := String → Signal

def dse_buffer_append (buffer : List ℕ) (buffer_size : ℕ) (data : List ℕ) :
    List ℕ × ℕ :=
  (buffer ++ data, max buffer_size (buffer.length + data.length))

structure ModelFunctionChannel where
  channel_name : String
  signal_names : List String
  signal_value_double : Option (List ℚ)
  signal_value_binary : Option (List (List ℕ × ℕ))

def m2a_scalar_write (names : List String) (sv : List ℚ) (ch : Chan) (si : ℕ) :
    Chan :=
  Function.update ch (names.getD si "")
    { ch (names.getD si "") with final_val := sv.getD si 0 }

def m2a_scalar (names : List String) (sv : List ℚ) (ch : Chan) : Chan :=
  (List.range names.length).foldl (m2a_scalar_write names sv) ch

def a2m_scalar_write (names : List String) (ch : Chan) (sv : List ℚ) (si : ℕ) :
    List ℚ :=
  sv.set si (ch (names.getD si "")).val

def a2m_scalar (names : List String) (ch : Chan) (sv : List ℚ) : List ℚ :=
  (List.range names.length).foldl (a2m_scalar_write names ch) sv

def marshal_bin_write (names : List String)
    (f : List ℕ × ℕ → Signal → (List ℕ × ℕ) × Signal)
    (st : List (List ℕ × ℕ) × Chan) (si : ℕ) : List (List ℕ × ℕ) × Chan :=
  let nm := names.getD si ""
  let r := f (st.1.getD si ([], 0)) (st.2 nm)
  (st.1.set si r.1, Function.update st.2 nm r.2)

def m2a_bin_f (b : List ℕ × ℕ) (s : Signal) : (List ℕ × ℕ) × Signal :=
  let r := dse_buffer_append s.bin s.bin_buffer_size b.1
  (([], b.2), { s with bin := r.1, bin_buffer_size := r.2 })

def a2m_bin_f (b : List ℕ × ℕ) (s : Signal) : (List ℕ × ℕ) × Signal :=
  (dse_buffer_append b.1 b.2 s.bin, { s with bin := [] })

def marshal_model2adapter (mfc : ModelFunctionChannel) (ch : Chan) :
    ModelFunctionChannel × Chan :=
  let ch1 := match mfc.signal_value_double with
    | some sv => m2a_scalar mfc.signal_names sv ch
    | none => ch
  match mfc.signal_value_binary with
  | some bufs =>
      let r := (List.range mfc.signal_names.length).foldl
        (marshal_bin_write mfc.signal_names m2a_bin_f) (bufs, ch1)
      ({ mfc with signal_value_binary := some r.1 }, r.2)
  | none => (mfc, ch1)

def marshal_adapter2model (mfc : ModelFunctionChannel) (ch : Chan) :
    ModelFunctionChannel × Chan :=
  let mfc1 := match mfc.signal_value_double with
    | some sv =>
        { mfc with signal_value_double := some (a2m_scalar mfc.signal_names ch sv) }
    | none => mfc
  match mfc.signal_value_binary with
  | some bufs =>
      let r := (List.range mfc.signal_names.length).foldl
        (marshal_bin_write mfc.signal_names a2m_bin_f) (bufs, ch)
      ({ mfc1 with signal_value_binary := some r.1 }, r.2)
  | none => (mfc1, ch)

def mfcW : ModelFunctionChannel :=
  { channel_name := "data", signal_names := ["x", "y"],
    signal_value_double := some [7, 8], signal_value_binary := none }

def chW : Chan := fun _ => { val := 1, final_val := 2, bin := [], bin_buffer_size := 0 }

def mfcB : ModelFunctionChannel :=
  { channel_name := "data", signal_names := ["b"],
    signal_value_double := none, signal_value_binary := some [([1, 2, 3, 4], 8)] }

def chB : Chan := fun _ => { val := 0, final_val := 0, bin := [9], bin_buffer_size := 4 }

def ch1W : Chan := fun _ => { val := 5, final_val := 1, bin := [], bin_buffer_size := 0 }

def ch2W : Chan := fun _ => { val := 5, final_val := 2, bin := [], bin_buffer_size := 0 }

structure ModelFunction where
  name : String
  do_step_handler : ℚ → ℚ → ℚ × Int
  channels : List ModelFunctionChannel

def hashmap_iterator {α : Type} (f : α → Int) : List α → Int
  | [] => 0
  | x :: xs =>
      let rc := f x
      if rc ≠ 0 then rc else hashmap_iterator f xs

def _do_step_func (model_time stop_time : ℚ) (mf : ModelFunction) : Int :=
  let r := mf.do_step_handler model_time stop_time
  0

structure AdapterModel where
  model_time : ℚ
  stop_time : ℚ
  channels : String → Chan

def step_model (mfs : List ModelFunction) (am : AdapterModel) :
    AdapterModel × ℚ × Int :=
  let model_time := am.model_time
  let stop_time := am.stop_time
  let rc := hashmap_iterator (_do_step_func model_time stop_time) mfs
  let am' := { am with model_time := am.stop_time }
  (am', am'.model_time, rc)

structure InstanceState where
  name : String
  model_functions : List ModelFunction
  am : AdapterModel
  model_exit_func : Option Int

structure SimState where
  step_size : ℚ
  end_time : ℚ
  instances : List InstanceState

def sim_step_models_loop : List InstanceState → ℚ →
    List InstanceState × ℚ × Int
  | [], mt => ([], mt, 0)
  | i :: rest, mt =>
      let r := step_model i.model_functions i.am
      let i' := { i with am := r.1 }
      if r.2.2 ≠ 0 then (i' :: rest, r.2.1, r.2.2)
      else
        let r' := sim_step_models_loop rest r.2.1
        (i' :: r'.1, r'.2.1, r'.2.2)

def sim_step_models (insts : List InstanceState) (mt : ℚ) :
    List InstanceState × ℚ × Int :=
  let r := sim_step_models_loop insts mt
  (r.1, r.2.1, if r.2.2 < 0 then 1 else if 0 < r.2.2 then 2 else 0)

inductive marshal_dir where
  | MARSHAL_ADAPTER2MODEL
  | MARSHAL_MODEL2ADAPTER

def marshal_mfc : marshal_dir → ModelFunctionChannel → Chan →
    ModelFunctionChannel × Chan
  | .MARSHAL_ADAPTER2MODEL => marshal_adapter2model
  | .MARSHAL_MODEL2ADAPTER => marshal_model2adapter

def marshal_mfcs (dir : marshal_dir) :
    List ModelFunctionChannel → (String → Chan) →
      List ModelFunctionChannel × (String → Chan)
  | [], chans => ([], chans)
  | mfc :: rest, chans =>
      let r := marshal_mfc dir mfc (chans mfc.channel_name)
      let chans' := Function.update chans mfc.channel_name r.2
      let rr := marshal_mfcs dir rest chans'
      (r.1 :: rr.1, rr.2)

def marshal_mf (dir : marshal_dir) (mf : ModelFunction) (am : AdapterModel) :
    ModelFunction × AdapterModel :=
  let r := marshal_mfcs dir mf.channels am.channels
  ({ mf with channels := r.1 }, { am with channels := r.2 })

def marshal_mfs (dir : marshal_dir) :
    List ModelFunction → AdapterModel → List ModelFunction × AdapterModel
  | [], am => ([], am)
  | mf :: rest, am =>
      let r := marshal_mf dir mf am
      let rr := marshal_mfs dir rest r.2
      (r.1 :: rr.1, rr.2)

def marshal_instance (dir : marshal_dir) (i : InstanceState) : InstanceState :=
  let r := marshal_mfs dir i.model_functions i.am
  { i with model_functions := r.1, am := r.2 }

def marshal (sim : SimState) (dir : marshal_dir) : SimState :=
  { sim with instances := sim.instances.map (marshal_instance dir) }

def adapter_ready (sim : SimState) : SimState × Int :=
  ({ sim with instances := sim.instances.map (fun i =>
      { i with am := { i.am with
          stop_time := i.am.model_time + sim.step_size } }) }, 0)

def controller_step (sim : SimState) : SimState × Int :=
  let sim1 := marshal sim marshal_dir.MARSHAL_MODEL2ADAPTER
  let r := adapter_ready sim1
  if r.2 ≠ 0 then r
  else
    let sim3 := marshal r.1 marshal_dir.MARSHAL_ADAPTER2MODEL
    let end_time := sim3.end_time
    let model_time := sim3.end_time
    let rs := sim_step_models sim3.instances model_time
    let sim4 := { sim3 with instances := rs.1 }
    if rs.2.2 ≠ 0 then (sim4, rs.2.2)
    else if 0 < end_time ∧ end_time < rs.2.1 then (sim4, 1)
    else (sim4, 0)

def step_instance (i : InstanceState) : InstanceState :=
  { i with am := { i.am with model_time := i.am.stop_time } }

def controller_step_marshalled (sim : SimState) : SimState :=
  marshal (adapter_ready (marshal sim marshal_dir.MARSHAL_MODEL2ADAPTER)).1
    marshal_dir.MARSHAL_ADAPTER2MODEL

def updated_model_time (sim : SimState) : ℚ :=
  ((((controller_step_marshalled sim).instances).getLast?).map
    (fun i => i.am.stop_time)).getD sim.end_time

def lastModelTime (sim : SimState) : ℚ :=
  (((sim.instances).getLast?).map (fun i => i.am.model_time)).getD sim.end_time

def zeroSignal : Signal := { val := 0, final_val := 0, bin := [], bin_buffer_size := 0 }

def gwMF : ModelFunction :=
  { name := "gateway",
    do_step_handler := fun _ stop_time => (stop_time, 0),
    channels := [] }

def amW : AdapterModel :=
  { model_time := 0, stop_time := 1/10, channels := fun _ _ => zeroSignal }

def noopInstance : InstanceState :=
  { name := "m", model_functions := [gwMF],
    am := { model_time := 0, stop_time := 0, channels := fun _ _ => zeroSignal },
    model_exit_func := none }

def simS2 : SimState :=
  { step_size := 1/10, end_time := 1/4, instances := [noopInstance] }

def ECANCELED : Int := 125

inductive Effect where
  | adapterInterrupt
  | adapterExit
  | adapterDestroy
  | modelExit (name : String)
deriving Repr, DecidableEq

structure Controller where
  stop_request : Bool
  adapter_present : Bool
deriving Repr, DecidableEq

def controller_run_loop : ℕ → Controller → SimState → SimState × Int × ℕ
  | 0, _, sim => (sim, 0, 0)
  | fuel + 1, ctl, sim =>
      if ctl.stop_request then (sim, ECANCELED, 0)
      else
        let r := controller_step sim
        if r.2 ≠ 0 then (r.1, 0, 1)
        else
          let rr := controller_run_loop fuel ctl r.1
          (rr.1, rr.2.1, rr.2.2 + 1)

def controller_run (c : Option Controller) (sim : SimState) (fuel : ℕ) :
    Option Controller × SimState × Int × ℕ :=
  match c with
  | none => (none, sim, 0, 0)
  | some ctl =>
      let r := controller_run_loop fuel ctl sim
      (some ctl, r.1, r.2.1, r.2.2)

def controller_stop (c : Option Controller) :
    Option Controller × List Effect :=
  match c with
  | none => (none, [])
  | some ctl =>
      (some { ctl with stop_request := true },
       if ctl.adapter_present then [Effect.adapterInterrupt] else [])

def controller_destroy (c : Option Controller) :
    Option Controller × List Effect :=
  match c with
  | none => (none, [])
  | some ctl =>
      (none, if ctl.adapter_present then [Effect.adapterDestroy] else [])

def controller_exit (c : Option Controller) (sim : Option SimState) :
    Option Controller × List Effect :=
  match c with
  | none => (none, [])
  | some ctl =>
      match sim with
      | none => (some ctl, [])
      | some s =>
          let exits := s.instances.filterMap
            (fun i => i.model_exit_func.map (fun _ => Effect.modelExit i.name))
          let adapterFx :=
            if ctl.adapter_present then [Effect.adapterExit] else []
          let d := controller_destroy (some ctl)
          (d.1, exits ++ adapterFx ++ d.2)

def exitRequestMF : ModelFunction :=
  { name := "wantsexit",
    do_step_handler := fun _ stop_time => (stop_time, 1),
    channels := [] }

def instC8 : InstanceState :=
  { name := "m", model_functions := [exitRequestMF],
    am := { model_time := 0, stop_time := 0,
            channels := fun _ _ => zeroSignal },
    model_exit_func := none }

def simC8 : SimState :=
  { step_size := 1/10, end_time := 0, instances := [instC8] }

def ctlW : Controller := { stop_request := false, adapter_present := true }

def ctlStopped : Controller := { stop_request := true, adapter_present := true }

def E_GATEWAYBEHIND : Int := 902

def gw_model_time (sim : SimState) : ℚ :=
  ((sim.instances.head?).map (fun i => i.am.model_time)).getD 0

def gw_sync_loop (step : SimState → SimState × Int) :
    ℕ → SimState → ℚ → Option (SimState × Int × ℕ)
  | 0, _, _ => none
  | fuel + 1, s, model_time =>
      if gw_model_time s ≤ model_time then
        let r := step s
        if r.2 ≠ 0 then some (r.1, r.2, 1)
        else (gw_sync_loop step fuel r.1 model_time).map
          (fun rr => (rr.1, rr.2.1, rr.2.2 + 1))
      else some (s, 0, 0)

def model_gw_sync (fuel : ℕ) (sim : SimState) (model_time : ℚ) :
    Option (SimState × Int × ℕ) :=
  if model_time < gw_model_time sim then some (sim, E_GATEWAYBEHIND, 0)
  else gw_sync_loop controller_step fuel sim model_time

def gwInstance : InstanceState :=
  { name := "gateway", model_functions := [gwMF],
    am := { model_time := 0, stop_time := 0,
            channels := fun _ _ => zeroSignal },
    model_exit_func := none }

def gwSim : SimState :=
  { step_size := 1/10, end_time := 10, instances := [gwInstance] }

def EINVAL : Int := 22

structure LibInterface where
  has_create : Bool
  has_step : Bool
  has_destroy : Bool
deriving Repr, DecidableEq

structure ModelDefinition where
  full_path : Option String
  lib : Option LibInterface
  has_gateway_node : Bool

structure ModelVTable where
  create : Bool
  step : Bool
  destroy : Bool
deriving Repr, DecidableEq

structure LoaderInstance where
  name : String
  model_definition : ModelDefinition
  create_rc : Int

def controller_load_model (md : ModelDefinition) : Int × ModelVTable :=
  match md.full_path with
  | some _ =>
      match md.lib with
      | none => (EINVAL, ⟨false, false, false⟩)
      | some l => (0, ⟨l.has_create, l.has_step, l.has_destroy⟩)
  | none =>
      if md.has_gateway_node then (0, ⟨true, true, true⟩)
      else (0, ⟨false, false, false⟩)

def controller_load_models : List LoaderInstance → Int × List String
  | [] => (0, [])
  | inst :: rest =>
      let r := controller_load_model inst.model_definition
      if r.1 ≠ 0 then (r.1, [])
      else if r.2.create = false ∧ r.2.step = false then (r.1, [])
      else if inst.create_rc ≠ 0 then (inst.create_rc, [inst.name])
      else
        let rr := controller_load_models rest
        (rr.1, inst.name :: rr.2)

def emptyIfaceInst : LoaderInstance :=
  { name := "empty",
    model_definition :=
      { full_path := some "lib/empty.so",
        lib := some { has_create := false, has_step := false,
                      has_destroy := true },
        has_gateway_node := false },
    create_rc := 0 }

def okInst : LoaderInstance :=
  { name := "ok",
    model_definition :=
      { full_path := some "lib/ok.so",
        lib := some { has_create := true, has_step := true,
                      has_destroy := true },
        has_gateway_node := false },
    create_rc := 0 }

/-! ## Theorems -/

theorem nodup_getD_ne (names : List String) (hnd : names.Nodup) {i j : ℕ}
    (hi : i < names.length) (hj : j < names.length) (hij : i ≠ j) :
    names.getD i "" ≠ names.getD j "" := by
  rw [List.getD_eq_getElem names "" hi, List.getD_eq_getElem names "" hj]
  intro h
  exact hij ((hnd.getElem_inj_iff).mp h)

theorem getD_not_mem_take (names : List String) (hnd : names.Nodup) {n : ℕ}
    (hn : n < names.length) : names.getD n "" ∉ names.take n := by
  intro hmem
  rcases List.mem_take_iff_getElem.mp hmem with ⟨i, hm, hEq⟩
  have hi : i < names.length := lt_of_lt_of_le hm (min_le_right _ _)
  have hin : i < n := lt_of_lt_of_le hm (min_le_left _ _)
  rw [List.getD_eq_getElem names "" hn] at hEq
  exact absurd ((hnd.getElem_inj_iff).mp hEq) (Nat.ne_of_lt hin)

theorem getD_mem_take_succ (names : List String) {n : ℕ}
    (hn : n < names.length) : names.getD n "" ∈ names.take (n + 1) := by
  rw [List.getD_eq_getElem names "" hn]
  exact List.mem_take_iff_getElem.mpr
    ⟨n, lt_min (Nat.lt_succ_self n) hn, rfl⟩

theorem mem_take_mono {α : Type} {l : List α} {a : α} {n : ℕ}
    (h : a ∈ l.take n) : a ∈ l.take (n + 1) := by
  rcases List.mem_take_iff_getElem.mp h with ⟨i, hm, hEq⟩
  exact List.mem_take_iff_getElem.mpr
    ⟨i, lt_min (lt_of_lt_of_le (lt_of_lt_of_le hm (min_le_left _ _))
        (Nat.le_succ n)) (lt_of_lt_of_le hm (min_le_right _ _)), hEq⟩

theorem m2a_scalar_write_preserve (names : List String) (sv : List ℚ)
    (ch : Chan) (si : ℕ) (nm : String) :
    ((m2a_scalar_write names sv ch si) nm).val = (ch nm).val ∧
    ((m2a_scalar_write names sv ch si) nm).bin = (ch nm).bin ∧
    ((m2a_scalar_write names sv ch si) nm).bin_buffer_size
      = (ch nm).bin_buffer_size := by
  unfold m2a_scalar_write
  rcases eq_or_ne nm (names.getD si "") with h | h
  · subst h; simp [Function.update_same]
  · simp [Function.update_noteq h]

theorem foldl_m2a_scalar_preserve (names : List String) (sv : List ℚ) :
    ∀ (L : List ℕ) (ch : Chan) (nm : String),
      ((L.foldl (m2a_scalar_write names sv) ch) nm).val = (ch nm).val ∧
      ((L.foldl (m2a_scalar_write names sv) ch) nm).bin = (ch nm).bin ∧
      ((L.foldl (m2a_scalar_write names sv) ch) nm).bin_buffer_size
        = (ch nm).bin_buffer_size := by
  intro L
  induction L with
  | nil => exact fun ch nm => ⟨rfl, rfl, rfl⟩
  | cons si L ih =>
      intro ch nm
      have h1 := ih (m2a_scalar_write names sv ch si) nm
      have h2 := m2a_scalar_write_preserve names sv ch si nm
      simp only [List.foldl_cons]
      exact ⟨h1.1.trans h2.1, h1.2.1.trans h2.2.1, h1.2.2.trans h2.2.2⟩

theorem foldl_marshal_bin_preserve {β : Type}
    (names : List String) (f : List ℕ × ℕ → Signal → (List ℕ × ℕ) × Signal)
    (g : Signal → β) (hf : ∀ b s, g (f b s).2 = g s) :
    ∀ (L : List ℕ) (st : List (List ℕ × ℕ) × Chan) (nm : String),
      g (((L.foldl (marshal_bin_write names f) st)).2 nm) = g (st.2 nm) := by
  intro L
  induction L with
  | nil => exact fun st nm => rfl
  | cons si L ih =>
      intro st nm
      simp only [List.foldl_cons]
      rw [ih]
      unfold marshal_bin_write
      rcases eq_or_ne nm (names.getD si "") with h | h
      · subst h; simp only [Function.update_same]; exact hf _ _
      · simp only [Function.update_noteq h]

theorem marshal_bin_fold_spec (names : List String)
    (f : List ℕ × ℕ → Signal → (List ℕ × ℕ) × Signal) :
    ∀ (n : ℕ) (bufs : List (List ℕ × ℕ)) (ch : Chan),
      n ≤ names.length → names.Nodup → names.length ≤ bufs.length →
      (((List.range n).foldl (marshal_bin_write names f) (bufs, ch)).1.length
          = bufs.length) ∧
      (∀ i, i < n →
        ((List.range n).foldl (marshal_bin_write names f) (bufs, ch)).1[i]?
          = some (f (bufs.getD i ([], 0)) (ch (names.getD i ""))).1) ∧
      (∀ i, n ≤ i →
        ((List.range n).foldl (marshal_bin_write names f) (bufs, ch)).1[i]?
          = bufs[i]?) ∧
      (∀ i, i < n →
        ((List.range n).foldl (marshal_bin_write names f) (bufs, ch)).2
            (names.getD i "")
          = (f (bufs.getD i ([], 0)) (ch (names.getD i ""))).2) ∧
      (∀ nm, nm ∉ names.take n →
        ((List.range n).foldl (marshal_bin_write names f) (bufs, ch)).2 nm
          = ch nm) := by
  intro n
  induction n with
  | zero =>
      intro bufs ch _ _ _
      refine ⟨rfl, fun i hi => absurd hi (Nat.not_lt_zero i),
        fun i _ => rfl, fun i hi => absurd hi (Nat.not_lt_zero i),
        fun nm _ => rfl⟩
  | succ n ih =>
      intro bufs ch hn hnd hlen
      have hn' : n ≤ names.length := Nat.le_of_succ_le hn
      have hnlt : n < names.length := hn
      obtain ⟨ihlen, ihset, ihrest, ihsig, ihother⟩ := ih bufs ch hn' hnd hlen
      set R := (List.range n).foldl (marshal_bin_write names f) (bufs, ch)
        with hR
      have hfold : (List.range (n + 1)).foldl (marshal_bin_write names f)
          (bufs, ch) = marshal_bin_write names f R n := by
        rw [List.range_succ, List.foldl_append]
        rfl
      have hRn : R.1[n]? = bufs[n]? := ihrest n (le_refl n)
      have hRngetD : R.1.getD n ([], 0) = bufs.getD n ([], 0) := by
        rw [List.getD_eq_getElem?_getD, List.getD_eq_getElem?_getD, hRn]
      have hkey : R.2 (names.getD n "") = ch (names.getD n "") :=
        ihother _ (getD_not_mem_take names hnd hnlt)
      have hnR : n < R.1.length := by
        rw [ihlen]; exact lt_of_lt_of_le hnlt hlen
      rw [hfold]
      unfold marshal_bin_write
      simp only []
      rw [hRngetD, hkey]
      refine ⟨?_, ?_, ?_, ?_, ?_⟩
      · rw [List.length_set, ihlen]
      · intro i hi
        rcases Nat.lt_succ_iff_lt_or_eq.mp hi with hi' | hi'
        · rw [List.getElem?_set_ne (Nat.ne_of_lt hi').symm]
          exact ihset i hi'
        · subst hi'
          exact List.getElem?_set_self hnR
      · intro i hi
        rw [List.getElem?_set_ne (Nat.ne_of_lt hi)]
        exact ihrest i (Nat.le_of_succ_le hi)
      · intro i hi
        rcases Nat.lt_succ_iff_lt_or_eq.mp hi with hi' | hi'
        · have hne : names.getD i "" ≠ names.getD n "" :=
            nodup_getD_ne names hnd (lt_of_lt_of_le hi' hn') hnlt
              (Nat.ne_of_lt hi')
          rw [Function.update_noteq hne]
          exact ihsig i hi'
        · subst hi'
          rw [Function.update_same]
      · intro nm hnm
        have hne : nm ≠ names.getD n "" := by
          intro h
          exact hnm (h ▸ getD_mem_take_succ names hnlt)
        rw [Function.update_noteq hne]
        exact ihother nm (fun h => hnm (mem_take_mono h))

theorem m2a_scalar_fold_spec (names : List String) (sv : List ℚ) :
    ∀ (n : ℕ) (ch : Chan), n ≤ names.length → names.Nodup →
      (∀ i, i < n →
        ((List.range n).foldl (m2a_scalar_write names sv) ch) (names.getD i "")
          = { ch (names.getD i "") with final_val := sv.getD i 0 }) ∧
      (∀ nm, nm ∉ names.take n →
        ((List.range n).foldl (m2a_scalar_write names sv) ch) nm = ch nm) := by
  intro n
  induction n with
  | zero =>
      intro ch _ _
      exact ⟨fun i hi => absurd hi (Nat.not_lt_zero i), fun nm _ => rfl⟩
  | succ n ih =>
      intro ch hn hnd
      have hn' : n ≤ names.length := Nat.le_of_succ_le hn
      have hnlt : n < names.length := hn
      obtain ⟨ihsig, ihother⟩ := ih ch hn' hnd
      set R := (List.range n).foldl (m2a_scalar_write names sv) ch with hR
      have hfold : (List.range (n + 1)).foldl (m2a_scalar_write names sv) ch
          = m2a_scalar_write names sv R n := by
        rw [List.range_succ, List.foldl_append]
        rfl
      have hkey : R (names.getD n "") = ch (names.getD n "") :=
        ihother _ (getD_not_mem_take names hnd hnlt)
      rw [hfold]
      unfold m2a_scalar_write
      rw [hkey]
      constructor
      · intro i hi
        rcases Nat.lt_succ_iff_lt_or_eq.mp hi with hi' | hi'
        · have hne : names.getD i "" ≠ names.getD n "" :=
            nodup_getD_ne names hnd (lt_of_lt_of_le hi' hn') hnlt
              (Nat.ne_of_lt hi')
          rw [Function.update_noteq hne]
          exact ihsig i hi'
        · subst hi'
          rw [Function.update_same]
      · intro nm hnm
        have hne : nm ≠ names.getD n "" := by
          intro h
          exact hnm (h ▸ getD_mem_take_succ names hnlt)
        rw [Function.update_noteq hne]
        exact ihother nm (fun h => hnm (mem_take_mono h))

theorem a2m_scalar_fold_spec (names : List String) (ch : Chan) :
    ∀ (n : ℕ) (sv : List ℚ),
      (((List.range n).foldl (a2m_scalar_write names ch) sv).length
        = sv.length) ∧
      (∀ i, i < n → i < sv.length →
        ((List.range n).foldl (a2m_scalar_write names ch) sv)[i]?
          = some (ch (names.getD i "")).val) ∧
      (∀ i, n ≤ i →
        ((List.range n).foldl (a2m_scalar_write names ch) sv)[i]? = sv[i]?) := by
  intro n
  induction n with
  | zero =>
      intro sv
      exact ⟨rfl, fun i hi _ => absurd hi (Nat.not_lt_zero i), fun i _ => rfl⟩
  | succ n ih =>
      intro sv
      obtain ⟨ihlen, ihset, ihrest⟩ := ih sv
      set R := (List.range n).foldl (a2m_scalar_write names ch) sv with hR
      have hfold : (List.range (n + 1)).foldl (a2m_scalar_write names ch) sv
          = a2m_scalar_write names ch R n := by
        rw [List.range_succ, List.foldl_append]
        rfl
      rw [hfold]
      unfold a2m_scalar_write
      refine ⟨?_, ?_, ?_⟩
      · rw [List.length_set, ihlen]
      · intro i hi hisv
        rcases Nat.lt_succ_iff_lt_or_eq.mp hi with hi' | hi'
        · rw [List.getElem?_set_ne (Nat.ne_of_lt hi').symm]
          exact ihset i hi' hisv
        · subst hi'
          exact List.getElem?_set_self (ihlen ▸ hisv)
      · intro i hi
        rw [List.getElem?_set_ne (Nat.ne_of_lt hi)]
        exact ihrest i (Nat.le_of_succ_le hi)

theorem m2a_scalar_preserve (names : List String) (sv : List ℚ) (ch : Chan)
    (nm : String) :
    (m2a_scalar names sv ch nm).val = (ch nm).val ∧
    (m2a_scalar names sv ch nm).bin = (ch nm).bin ∧
    (m2a_scalar names sv ch nm).bin_buffer_size = (ch nm).bin_buffer_size :=
  foldl_m2a_scalar_preserve names sv (List.range names.length) ch nm

theorem marshal_model2adapter_preserves_val (mfc : ModelFunctionChannel)
    (ch : Chan) (nm : String) :
    ((marshal_model2adapter mfc ch).2 nm).val = (ch nm).val := by
  obtain ⟨cn, names, svd, svb⟩ := mfc
  rcases svd with _ | sv <;> rcases svb with _ | bufs
  · rfl
  · exact foldl_marshal_bin_preserve names m2a_bin_f (fun s => s.val)
      (fun b s => rfl) (List.range names.length) (bufs, ch) nm
  · exact (m2a_scalar_preserve names sv ch nm).1
  · exact (foldl_marshal_bin_preserve names m2a_bin_f (fun s => s.val)
      (fun b s => rfl) (List.range names.length)
      (bufs, m2a_scalar names sv ch) nm).trans
      (m2a_scalar_preserve names sv ch nm).1

theorem marshal_adapter2model_preserves_scalars (mfc : ModelFunctionChannel)
    (ch : Chan) (nm : String) :
    ((marshal_adapter2model mfc ch).2 nm).val = (ch nm).val ∧
    ((marshal_adapter2model mfc ch).2 nm).final_val = (ch nm).final_val := by
  obtain ⟨cn, names, svd, svb⟩ := mfc
  rcases svd with _ | sv <;> rcases svb with _ | bufs
  · exact ⟨rfl, rfl⟩
  · exact ⟨foldl_marshal_bin_preserve names a2m_bin_f (fun s => s.val)
        (fun b s => rfl) (List.range names.length) (bufs, ch) nm,
      foldl_marshal_bin_preserve names a2m_bin_f (fun s => s.final_val)
        (fun b s => rfl) (List.range names.length) (bufs, ch) nm⟩
  · exact ⟨rfl, rfl⟩
  · exact ⟨foldl_marshal_bin_preserve names a2m_bin_f (fun s => s.val)
        (fun b s => rfl) (List.range names.length) (bufs, ch) nm,
      foldl_marshal_bin_preserve names a2m_bin_f (fun s => s.final_val)
        (fun b s => rfl) (List.range names.length) (bufs, ch) nm⟩

theorem a2m_scalar_congr (names : List String) (ch1 ch2 : Chan)
    (h : ∀ nm, (ch1 nm).val = (ch2 nm).val) (sv : List ℚ) :
    a2m_scalar names ch1 sv = a2m_scalar names ch2 sv := by
  unfold a2m_scalar
  exact List.foldl_ext _ _ sv
    (fun l si _ => by unfold a2m_scalar_write; rw [h])

theorem claim_C2_scalar_marshal_copies (mfc : ModelFunctionChannel)
    (sv : List ℚ) (ch : Chan) (i : ℕ)
    (hnd : mfc.signal_names.Nodup)
    (hi : i < mfc.signal_names.length)
    (hs : mfc.signal_value_double = some sv)
    (hlen : sv.length = mfc.signal_names.length) :
    ((marshal_model2adapter mfc ch).2 (mfc.signal_names.getD i "")).final_val
        = sv.getD i 0 ∧
    (marshal_model2adapter mfc ch).1.signal_value_double = some sv ∧
    (∃ sv', (marshal_adapter2model mfc ch).1.signal_value_double = some sv' ∧
      sv'[i]? = some ((ch (mfc.signal_names.getD i "")).val)) ∧
    (∀ nm, ((marshal_adapter2model mfc ch).2 nm).val = (ch nm).val ∧
      ((marshal_adapter2model mfc ch).2 nm).final_val = (ch nm).final_val) := by
  refine ⟨?_, ?_, ?_, fun nm => marshal_adapter2model_preserves_scalars mfc ch nm⟩
  · obtain ⟨cn, names, svd, svb⟩ := mfc
    simp only [] at hnd hi hs hlen ⊢
    subst hs
    have hch1 : (m2a_scalar names sv ch) (names.getD i "")
        = { ch (names.getD i "") with final_val := sv.getD i 0 } :=
      (m2a_scalar_fold_spec names sv names.length ch (le_refl _) hnd).1 i hi
    rcases svb with _ | bufs
    · exact congrArg Signal.final_val hch1
    · exact (foldl_marshal_bin_preserve names m2a_bin_f
        (fun s => s.final_val) (fun b s => rfl) (List.range names.length)
        (bufs, m2a_scalar names sv ch) (names.getD i "")).trans
        (congrArg Signal.final_val hch1)
  · obtain ⟨cn, names, svd, svb⟩ := mfc
    simp only [] at hs ⊢
    subst hs
    rcases svb with _ | bufs
    · rfl
    · rfl
  · obtain ⟨cn, names, svd, svb⟩ := mfc
    simp only [] at hnd hi hs hlen ⊢
    subst hs
    refine ⟨a2m_scalar names ch sv, ?_, ?_⟩
    · rcases svb with _ | bufs
      · rfl
      · rfl
    · exact (a2m_scalar_fold_spec names ch names.length sv).2.1 i hi
        (hlen ▸ hi)

theorem claim_C2_witness :
    ((marshal_model2adapter mfcW chW).2 (mfcW.signal_names.getD 0 "")).final_val
        = [(7 : ℚ), 8].getD 0 0 ∧
    (marshal_model2adapter mfcW chW).1.signal_value_double = some [7, 8] ∧
    (∃ sv', (marshal_adapter2model mfcW chW).1.signal_value_double = some sv' ∧
      sv'[0]? = some ((chW (mfcW.signal_names.getD 0 "")).val)) ∧
    (∀ nm, ((marshal_adapter2model mfcW chW).2 nm).val = (chW nm).val ∧
      ((marshal_adapter2model mfcW chW).2 nm).final_val = (chW nm).final_val) :=
  claim_C2_scalar_marshal_copies mfcW [7, 8] chW 0 (by decide) (by decide) rfl rfl

theorem claim_C3_binary_transfer (mfc : ModelFunctionChannel)
    (bufs : List (List ℕ × ℕ)) (ch : Chan) (i : ℕ)
    (hnd : mfc.signal_names.Nodup)
    (hi : i < mfc.signal_names.length)
    (hb : mfc.signal_value_binary = some bufs)
    (hlen : bufs.length = mfc.signal_names.length)
    (hne : (bufs.getD i ([], 0)).1 ≠ []) :
    (∃ bufs', (marshal_model2adapter mfc ch).1.signal_value_binary = some bufs' ∧
      bufs'[i]? = some ([], (bufs.getD i ([], 0)).2)) ∧
    ((marshal_model2adapter mfc ch).2 (mfc.signal_names.getD i "")).bin
        = (ch (mfc.signal_names.getD i "")).bin ++ (bufs.getD i ([], 0)).1 ∧
    ((marshal_adapter2model mfc ch).2 (mfc.signal_names.getD i "")).bin = [] ∧
    (∃ bufs'', (marshal_adapter2model mfc ch).1.signal_value_binary
        = some bufs'' ∧
      (bufs''[i]?).map Prod.fst
        = some ((bufs.getD i ([], 0)).1
            ++ (ch (mfc.signal_names.getD i "")).bin)) := by
  obtain ⟨cn, names, svd, svb⟩ := mfc
  simp only [] at hnd hi hb hlen ⊢
  subst hb
  have hlen' : names.length ≤ bufs.length := le_of_eq hlen.symm
  refine ⟨?_, ?_, ?_, ?_⟩
  · -- MODEL→ADAPTER, model side: slot i is emptied, capacity retained.
    rcases svd with _ | sv
    · exact ⟨_, rfl,
        (marshal_bin_fold_spec names m2a_bin_f names.length bufs ch
          (le_refl _) hnd hlen').2.1 i hi⟩
    · exact ⟨_, rfl,
        (marshal_bin_fold_spec names m2a_bin_f names.length bufs
          (m2a_scalar names sv ch) (le_refl _) hnd hlen').2.1 i hi⟩
  · -- MODEL→ADAPTER, adapter side: bytes are appended onto the signal buffer.
    rcases svd with _ | sv
    · exact congrArg Signal.bin
        ((marshal_bin_fold_spec names m2a_bin_f names.length bufs ch
          (le_refl _) hnd hlen').2.2.2.1 i hi)
    · exact (congrArg Signal.bin
        ((marshal_bin_fold_spec names m2a_bin_f names.length bufs
          (m2a_scalar names sv ch) (le_refl _) hnd hlen').2.2.2.1 i hi)).trans
        (congrArg (fun l => l ++ (bufs.getD i ([], 0)).1)
          (m2a_scalar_preserve names sv ch (names.getD i "")).2.1)
  · -- ADAPTER→MODEL, adapter side: the signal's buffer is consumed.
    rcases svd with _ | sv <;>
      exact congrArg Signal.bin
        ((marshal_bin_fold_spec names a2m_bin_f names.length bufs ch
          (le_refl _) hnd hlen').2.2.2.1 i hi)
  · -- ADAPTER→MODEL, model side: the signal's bytes land after the old ones.
    rcases svd with _ | sv <;>
      exact ⟨_, rfl, congrArg (fun o => Option.map Prod.fst o)
        ((marshal_bin_fold_spec names a2m_bin_f names.length bufs ch
          (le_refl _) hnd hlen').2.1 i hi)⟩

theorem claim_C3_witness :
    (∃ bufs', (marshal_model2adapter mfcB chB).1.signal_value_binary
        = some bufs' ∧
      bufs'[0]? = some ([], ([([1, 2, 3, 4], 8)].getD 0 ([], 0)).2)) ∧
    ((marshal_model2adapter mfcB chB).2 (mfcB.signal_names.getD 0 "")).bin
        = (chB (mfcB.signal_names.getD 0 "")).bin
          ++ ([([1, 2, 3, 4], 8)].getD 0 ([], 0)).1 ∧
    ((marshal_adapter2model mfcB chB).2 (mfcB.signal_names.getD 0 "")).bin
        = [] ∧
    (∃ bufs'', (marshal_adapter2model mfcB chB).1.signal_value_binary
        = some bufs'' ∧
      (bufs''[0]?).map Prod.fst
        = some (([([1, 2, 3, 4], 8)].getD 0 ([], 0)).1
            ++ (chB (mfcB.signal_names.getD 0 "")).bin)) :=
  claim_C3_binary_transfer mfcB [([1, 2, 3, 4], 8)] chB 0
    (by decide) (by decide) rfl rfl (by decide)

theorem claim_C4_final_val_never_observed :
    (∀ (mfc : ModelFunctionChannel) (ch1 ch2 : Chan),
      (∀ nm, (ch1 nm).val = (ch2 nm).val) →
      (marshal_adapter2model mfc ch1).1.signal_value_double
        = (marshal_adapter2model mfc ch2).1.signal_value_double) ∧
    (∀ (mfc0 mfc1 : ModelFunctionChannel) (ch : Chan),
      (marshal_adapter2model mfc1
          (marshal_model2adapter mfc0 ch).2).1.signal_value_double
        = (marshal_adapter2model mfc1 ch).1.signal_value_double) := by
  have key : ∀ (mfc : ModelFunctionChannel) (ch1 ch2 : Chan),
      (∀ nm, (ch1 nm).val = (ch2 nm).val) →
      (marshal_adapter2model mfc ch1).1.signal_value_double
        = (marshal_adapter2model mfc ch2).1.signal_value_double := by
    intro mfc ch1 ch2 h
    obtain ⟨cn, names, svd, svb⟩ := mfc
    rcases svd with _ | sv <;> rcases svb with _ | bufs
    · rfl
    · rfl
    · exact congrArg some (a2m_scalar_congr names ch1 ch2 h sv)
    · exact congrArg some (a2m_scalar_congr names ch1 ch2 h sv)
  exact ⟨key, fun mfc0 mfc1 ch => key mfc1 _ ch
    (fun nm => marshal_model2adapter_preserves_val mfc0 ch nm)⟩

theorem claim_C4_witness :
    (marshal_adapter2model mfcW ch1W).1.signal_value_double
      = (marshal_adapter2model mfcW ch2W).1.signal_value_double :=
  claim_C4_final_val_never_observed.1 mfcW ch1W ch2W (fun nm => rfl)

theorem do_step_iterator_rc (model_time stop_time : ℚ) :
    ∀ mfs : List ModelFunction,
      hashmap_iterator (_do_step_func model_time stop_time) mfs = 0 := by
  intro mfs
  induction mfs with
  | nil => rfl
  | cons mf mfs ih =>
      show (if ((0 : Int) ≠ 0) then (0 : Int)
            else hashmap_iterator (_do_step_func model_time stop_time) mfs) = 0
      rw [if_neg (fun h => h rfl)]
      exact ih

theorem sim_step_models_loop_spec :
    ∀ (insts : List InstanceState) (mt : ℚ),
      sim_step_models_loop insts mt =
        (insts.map step_instance,
         insts.foldl (fun m i => i.am.stop_time) mt, 0) := by
  intro insts
  induction insts with
  | nil => intro mt; rfl
  | cons i rest ih =>
      intro mt
      show (if ((step_model i.model_functions i.am).2.2 ≠ 0) then _
            else _) = _
      rw [if_neg (fun h => h (do_step_iterator_rc i.am.model_time
        i.am.stop_time i.model_functions))]
      rw [ih]
      rfl

theorem getLast?_cons_isSome {α : Type} :
    ∀ (x : α) (xs : List α), ∃ y, (x :: xs).getLast? = some y
  | x, [] => ⟨x, rfl⟩
  | x, y :: ys => by
      rw [List.getLast?_cons_cons]
      exact getLast?_cons_isSome y ys

theorem foldl_replace_getLast {α β : Type} (g : α → β) :
    ∀ (l : List α) (b : β),
      l.foldl (fun _ i => g i) b = ((l.getLast?).map g).getD b := by
  intro l
  induction l with
  | nil => intro b; rfl
  | cons a l ih =>
      intro b
      rw [List.foldl_cons, ih (g a)]
      cases l with
      | nil => rfl
      | cons x xs =>
          obtain ⟨y, hy⟩ := getLast?_cons_isSome x xs
          rw [List.getLast?_cons_cons, hy]
          rfl

theorem sim_step_models_spec (insts : List InstanceState) (mt : ℚ) :
    sim_step_models insts mt =
      (insts.map step_instance,
       ((insts.getLast?).map (fun i => i.am.stop_time)).getD mt, 0) := by
  show (let r := sim_step_models_loop insts mt;
        (r.1, r.2.1, if r.2.2 < 0 then 1 else if 0 < r.2.2 then 2 else 0)) = _
  rw [sim_step_models_loop_spec insts mt]
  rw [foldl_replace_getLast (fun i => i.am.stop_time) insts mt]
  show (_, _, if (0 : Int) < 0 then 1 else if (0 : Int) < 0 then 2 else 0) = _
  rw [if_neg (lt_irrefl (0 : Int))]
  rw [if_neg (lt_irrefl (0 : Int))]

theorem controller_step_eq (sim : SimState) :
    controller_step sim =
      ({ controller_step_marshalled sim with
          instances :=
            (controller_step_marshalled sim).instances.map step_instance },
       if 0 < sim.end_time ∧ sim.end_time < updated_model_time sim then 1
       else 0) := by
  have h1 : controller_step sim
      = (fun rs : List InstanceState × ℚ × Int =>
          if rs.2.2 ≠ 0
          then ({ controller_step_marshalled sim with instances := rs.1 },
                rs.2.2)
          else if 0 < sim.end_time ∧ sim.end_time < rs.2.1
          then ({ controller_step_marshalled sim with instances := rs.1 }, 1)
          else ({ controller_step_marshalled sim with instances := rs.1 }, 0))
        (sim_step_models (controller_step_marshalled sim).instances
          (controller_step_marshalled sim).end_time) := rfl
  rw [sim_step_models_spec] at h1
  rw [h1]
  simp only []
  rw [if_neg (fun h => h rfl)]
  split
  · rename_i h
    rw [if_pos
      (show 0 < sim.end_time ∧ sim.end_time < updated_model_time sim from h)]
  · rename_i h
    rw [if_neg
      (show ¬(0 < sim.end_time ∧ sim.end_time < updated_model_time sim)
        from h)]

theorem lastModelTime_step (sim : SimState) :
    lastModelTime (controller_step sim).1 = updated_model_time sim := by
  rw [controller_step_eq]
  unfold lastModelTime updated_model_time
  rcases h : (controller_step_marshalled sim).instances.getLast? with _ | i <;>
    rw [List.getLast?_map, h] <;> rfl

theorem claim_C1_step_model_times (mfs : List ModelFunction)
    (am : AdapterModel) (hinv : am.model_time ≤ am.stop_time) :
    (step_model mfs am).1.model_time = am.stop_time ∧
    (step_model mfs am).2.1 = am.stop_time ∧
    (step_model mfs am).1.model_time ≤ (step_model mfs am).1.stop_time :=
  ⟨rfl, rfl, le_refl am.stop_time⟩

theorem claim_C1_witness :
    amW.model_time ≤ amW.stop_time ∧
    ((step_model [gwMF] amW).1.model_time = amW.stop_time ∧
     (step_model [gwMF] amW).2.1 = amW.stop_time ∧
     (step_model [gwMF] amW).1.model_time
       ≤ (step_model [gwMF] amW).1.stop_time) :=
  ⟨by decide, claim_C1_step_model_times [gwMF] amW (by decide)⟩

theorem claim_C6_end_condition :
    (∀ sim : SimState,
      ((controller_step sim).2 = 1 ↔
        0 < sim.end_time ∧
          sim.end_time < lastModelTime (controller_step sim).1) ∧
      ((controller_step sim).2 = 0 ∨ (controller_step sim).2 = 1)) ∧
    ((controller_step simS2).2 = 0 ∧
     (controller_step (controller_step simS2).1).2 = 0 ∧
     (controller_step ((controller_step (controller_step simS2).1).1)).2 = 1 ∧
     lastModelTime
        ((controller_step ((controller_step (controller_step simS2).1).1)).1)
       = 3/10) := by
  constructor
  · intro sim
    have hl := lastModelTime_step sim
    constructor
    · rw [hl, controller_step_eq]
      simp only []
      split
      · rename_i hc
        exact ⟨fun _ => hc, fun _ => rfl⟩
      · rename_i hc
        exact ⟨fun h01 => absurd h01 (by decide), fun hcc => absurd hcc hc⟩
    · rw [controller_step_eq]
      simp only []
      split
      · exact Or.inr rfl
      · exact Or.inl rfl
  · refine ⟨by decide, by decide, by decide, by decide⟩

theorem claim_C8_counterexample :
    (exitRequestMF.do_step_handler 0 0).2 = 1 ∧
    (controller_step simC8).2 = 0 ∧
    (controller_run (some ctlW) simC8 2).2.2.2 = 2 ∧
    (controller_run (some ctlW) simC8 2).2.2.1 = 0 :=
  ⟨by decide, by decide, by decide, by decide⟩

theorem claim_C8_amended_rc_discarded :
    (∀ (model_time stop_time : ℚ) (mf : ModelFunction),
      _do_step_func model_time stop_time mf = 0) ∧
    (∀ (mfs : List ModelFunction) (am : AdapterModel),
      (step_model mfs am).2.2 = 0) ∧
    (∀ (insts : List InstanceState) (mt : ℚ),
      (sim_step_models insts mt).2.2 = 0) := by
  refine ⟨fun _ _ _ => rfl, fun mfs am => do_step_iterator_rc _ _ mfs,
    fun insts mt => ?_⟩
  rw [sim_step_models_spec]

theorem controller_run_loop_stopped (fuel : ℕ) (ctl : Controller)
    (sim : SimState) (hstop : ctl.stop_request = true) :
    controller_run_loop (fuel + 1) ctl sim = (sim, ECANCELED, 0) := by
  unfold controller_run_loop
  rw [hstop]
  rfl

theorem claim_C9_stop_cancels_run (ctl : Controller) (sim : SimState)
    (fuel : ℕ) (hfuel : 0 < fuel) (hstop : ctl.stop_request = true) :
    controller_run (some ctl) sim fuel = (some ctl, sim, ECANCELED, 0) ∧
    controller_stop (some ctl)
      = (some { ctl with stop_request := true },
         if ctl.adapter_present then [Effect.adapterInterrupt] else []) ∧
    controller_run (controller_stop (some ctl)).1 sim fuel
      = (some { ctl with stop_request := true }, sim, ECANCELED, 0) := by
  obtain ⟨fuel, rfl⟩ : ∃ n, fuel = n + 1 :=
    ⟨fuel - 1, (Nat.succ_pred_eq_of_pos hfuel).symm⟩
  refine ⟨?_, rfl, ?_⟩
  · show (some ctl, (controller_run_loop (fuel + 1) ctl sim).1,
        (controller_run_loop (fuel + 1) ctl sim).2.1,
        (controller_run_loop (fuel + 1) ctl sim).2.2) = _
    rw [controller_run_loop_stopped fuel ctl sim hstop]
  · show (some { ctl with stop_request := true },
        (controller_run_loop (fuel + 1) { ctl with stop_request := true }
          sim).1,
        (controller_run_loop (fuel + 1) { ctl with stop_request := true }
          sim).2.1,
        (controller_run_loop (fuel + 1) { ctl with stop_request := true }
          sim).2.2) = _
    rw [controller_run_loop_stopped fuel { ctl with stop_request := true }
      sim rfl]

theorem claim_C9_witness :
    (0 < 3 ∧ ctlStopped.stop_request = true) ∧
    (controller_run (some ctlStopped) simS2 3
        = (some ctlStopped, simS2, ECANCELED, 0) ∧
     controller_stop (some ctlStopped)
        = (some { ctlStopped with stop_request := true },
           if ctlStopped.adapter_present then [Effect.adapterInterrupt]
           else []) ∧
     controller_run (controller_stop (some ctlStopped)).1 simS2 3
        = (some { ctlStopped with stop_request := true }, simS2,
           ECANCELED, 0)) :=
  ⟨⟨by decide, rfl⟩, claim_C9_stop_cancels_run ctlStopped simS2 3
    (by decide) rfl⟩

theorem claim_C10_null_controller_noop (sim : SimState) (fuel : ℕ)
    (s : Option SimState) :
    controller_run none sim fuel = (none, sim, 0, 0) ∧
    controller_stop none = (none, []) ∧
    controller_exit none s = (none, []) ∧
    controller_destroy none = (none, []) :=
  ⟨rfl, rfl, rfl, rfl⟩

theorem claim_C5_gateway_sync (fuel : ℕ) (sim : SimState) (t : ℚ)
    (hbehind : t < gw_model_time sim) :
    model_gw_sync fuel sim t = some (sim, E_GATEWAYBEHIND, 0) ∧
    (∀ (step : SimState → SimState × Int) (fl : ℕ) (s : SimState) (u : ℚ),
      gw_model_time s ≤ u → (step s).2 ≠ 0 →
      gw_sync_loop step (fl + 1) s u = some ((step s).1, (step s).2, 1)) ∧
    (model_gw_sync 10 gwSim (3/10)).map
        (fun r => (gw_model_time r.1, r.2.1, r.2.2))
      = some (2/5, 0, 4) := by
  refine ⟨?_, ?_, by decide⟩
  · unfold model_gw_sync
    rw [if_pos hbehind]
  · intro step fl s u hu hrc
    unfold gw_sync_loop
    rw [if_pos hu]
    show (if (step s).2 ≠ 0 then some ((step s).1, (step s).2, 1)
          else (gw_sync_loop step fl (step s).1 u).map
            (fun rr => (rr.1, rr.2.1, rr.2.2 + 1))) = _
    rw [if_pos hrc]

theorem claim_C5_witness :
    (-1 : ℚ)/10 < gw_model_time gwSim ∧
    (model_gw_sync 10 gwSim (-1/10) = some (gwSim, E_GATEWAYBEHIND, 0) ∧
     (∀ (step : SimState → SimState × Int) (fl : ℕ) (s : SimState) (u : ℚ),
        gw_model_time s ≤ u → (step s).2 ≠ 0 →
        gw_sync_loop step (fl + 1) s u = some ((step s).1, (step s).2, 1)) ∧
     (model_gw_sync 10 gwSim (3/10)).map
        (fun r => (gw_model_time r.1, r.2.1, r.2.2))
       = some (2/5, 0, 4)) :=
  ⟨by decide, claim_C5_gateway_sync 10 gwSim (-1/10) (by decide)⟩

theorem claim_C7_code_evaluation :
    controller_load_models [emptyIfaceInst, okInst] = (0, []) ∧
    (controller_load_model emptyIfaceInst.model_definition).2.create = false ∧
    (controller_load_model emptyIfaceInst.model_definition).2.step = false ∧
    controller_load_models [okInst] = (0, ["ok"]) :=
  ⟨by decide, by decide, by decide, by decide⟩

end Modelc
